import Mathlib

/-!
Shallow embedding of the Arduino MCP IPC server
(`arduino-mcp-extension/src/node/ipc-server.ts` together with the wire
types of `ipc-protocol.ts`), and proofs about its task subsystem,
method routing, line framing, broadcast and sketch-tracking logic.

Conventions of the embedding:
* Maps (`this.tasks : Map<string, Task>`) are association lists with
  string keys; `mapGet` / `mapSet` mirror `Map.get` / `Map.set`
  (set replaces an existing binding in place, otherwise appends).
* Socket writes are recorded in an observable trace `sent`
  (client id, raw payload) and `console.error` calls in `log`;
  this makes "what was written to whom" a value we can reason about.
* `JSON.stringify` for outgoing events is abstracted by the concrete
  injective rendering `serializeEvent`; the claims proved below depend
  only on "one serialization, written verbatim to each client".
* `await`ed external service calls (`coreService.compile` / `upload`)
  are suspension points: `runTask` is split into `runTaskStart`
  (the synchronous segment up to the `await`) and `runTaskFinish`
  (the continuation after the external call resolves or rejects),
  with the external outcome supplied as an explicit `Except` value.
* `Date.now()` is an explicit `now : Nat` parameter.
-/

namespace ArduinoMCP

/-- Embeds `TaskStatus` of `ipc-protocol.ts`:
`pending | running | completed | failed | cancelled`. -/
inductive TaskStatus where
  | pending
  | running
  | completed
  | failed
  | cancelled
deriving DecidableEq, Repr

/-- The argument bag of a task (`params.arguments`), restricted to the
fields the task runners actually read: `fqbn`, `verbose`, `port`,
`verify`.  Absent fields are `none` (JS `undefined`). -/
structure TaskArgs where
  fqbn : Option String := none
  verbose : Bool := false
  port : Option String := none
  verify : Option Bool := none
deriving DecidableEq, Repr

/-- Result object stored on a task by `runCompileTask` / `runUploadTask`.
The payloads coming back from the external services are kept opaque
(`Option String`). -/
inductive TaskResult where
  | compileOk (buildPath : Option String) (executableSectionsSize : Option String)
  | uploadOk (portAfterUpload : Option String)
deriving DecidableEq, Repr

/-- Embeds `Task` of `ipc-protocol.ts`. -/
structure Task where
  id : String
  status : TaskStatus
  tool : String
  arguments : TaskArgs
  result : Option TaskResult := none
  error : Option String := none
  progress : Option Nat := none
  progressMessage : Option String := none
deriving DecidableEq, Repr

/-- A `Sketch` as tracked by the server (the fields `setCurrentSketch`
and the task runners consult). -/
structure Sketch where
  name : String
  uri : String
  mainFileUri : String
deriving DecidableEq, Repr

/-- One entry of `this.clients : Set<net.Socket>`.  `writeOk` records
whether `socket.write` succeeds on this connection (a broken pipe has
`writeOk = false`). -/
structure Client where
  id : Nat
  writeOk : Bool
deriving DecidableEq, Repr

/-- Data payload of an `IPCEvent` (the two event shapes the server
emits: `task/progress` and the empty object of `roots/changed`). -/
inductive EventData where
  | empty
  | progressData (taskId : String) (progress : Nat) (total : Nat) (message : String)
deriving DecidableEq, Repr

/-- Embeds `IPCEvent` of `ipc-protocol.ts`. -/
structure IPCEvent where
  event : String
  data : EventData
deriving DecidableEq, Repr

/-- Abstraction of `JSON.stringify(event)`: a concrete injective
rendering of the event (the proofs below depend only on the payload
being produced once and written verbatim to every client). -/
def serializeEvent (e : IPCEvent) : String :=
  let dataStr :=
    match e.data with
    | .empty => "[]"
    | .progressData taskId progress total message =>
        "[taskId=" ++ taskId ++ ",progress=" ++ toString progress ++
        ",total=" ++ toString total ++ ",message=" ++ message ++ "]"
  "[event=" ++ e.event ++ ",data=" ++ dataStr ++ "]"

/-- The full mutable state of `ArduinoIPCServer`, together with the
observable output traces `sent` and `log`. -/
structure ServerState where
  tasks : List (String × Task) := []
  taskCounter : Nat := 0
  currentSketch : Option Sketch := none
  lastBuildOutput : Option (String × String) := none
  clients : List Client := []
  scheduled : List String := []
  sent : List (Nat × String) := []
  log : List String := []
deriving DecidableEq, Repr

/-- Embeds `Map.get` on the task table. -/
def mapGet (m : List (String × Task)) (k : String) : Option Task :=
  match m with
  | [] => none
  | (k', v) :: rest => if k' = k then some v else mapGet rest k

/-- Embeds `Map.set`: replace an existing binding in place, else append. -/
def mapSet (m : List (String × Task)) (k : String) (v : Task) :
    List (String × Task) :=
  match m with
  | [] => [(k, v)]
  | (k', v') :: rest =>
      if k' = k then (k, v) :: rest else (k', v') :: mapSet rest k v

/-- Embeds `broadcast(event)` (ipc-server.ts lines 1003-1012): serialize the
event once, then for each client in the set try to write; a failing
write is logged (`console.error`) and the loop continues.  The client
set itself is not modified here. -/
def broadcast (st : ServerState) (e : IPCEvent) : ServerState :=
  let message := serializeEvent e ++ "\n"
  st.clients.foldl
    (fun s c =>
      if c.writeOk then { s with sent := s.sent ++ [(c.id, message)] }
      else { s with log := s.log ++ ["[arduino-mcp] Failed to send event"] })
    st

/-- Embeds `emitProgress(taskId, progress, message)`: broadcast a
`task/progress` event with `total = 100`. -/
def emitProgress (st : ServerState) (taskId : String) (progress : Nat)
    (message : String) : ServerState :=
  broadcast st ⟨"task/progress", .progressData taskId progress 100 message⟩

/-- Embeds `emitRootsChanged()`: broadcast a `roots/changed` event with empty
data. -/
def emitRootsChanged (st : ServerState) : ServerState :=
  broadcast st ⟨"roots/changed", .empty⟩

/-- The error-event handler (`socket.on(error, ...)`) installed by
`handleClientConnection`: log and remove the client from the set. -/
def onSocketError (st : ServerState) (c : Client) : ServerState :=
  { st with
    clients := st.clients.filter (fun c' => c' ≠ c),
    log := st.log ++ ["[arduino-mcp] Socket error"] }

/-- Embeds `setCurrentSketch(sketch)` (ipc-server.ts lines 1021-1027):
replace the stored sketch; emit `roots/changed` exactly when
`this.currentSketch?.uri !== sketch?.uri`. -/
def setCurrentSketch (st : ServerState) (sketch : Option Sketch) :
    ServerState :=
  let changed := st.currentSketch.map (·.uri) ≠ sketch.map (·.uri)
  let st1 := { st with currentSketch := sketch }
  if changed then emitRootsChanged st1 else st1

/-- Embeds the `params` of an `IPCRequest`, restricted to the fields the embedded
handlers read.  Absent fields are `none` (JS `undefined`). -/
structure Params where
  tool : Option String := none
  arguments : Option TaskArgs := none
  taskId : Option String := none
deriving DecidableEq, Repr

/-- Embeds `IPCRequest` of `ipc-protocol.ts`. -/
structure IPCRequest where
  id : String
  method : String
  params : Params := {}
deriving DecidableEq, Repr

/-- The `error` member of an `IPCResponse`. -/
structure IPCError where
  code : Int
  message : String
deriving DecidableEq, Repr

/-- Embeds `Root` of `ipc-protocol.ts` (MCP 2025 roots capability). -/
structure Root where
  uri : String
  name : String
  isReadOnly : Bool
deriving DecidableEq, Repr

/-- Snapshot returned by `task/get`. -/
structure TaskSnapshot where
  status : TaskStatus
  result : Option TaskResult
  error : Option String
  progress : Option Nat
  progressMessage : Option String
deriving DecidableEq, Repr

/-- The successful result payloads returned by the embedded handlers;
results of the handlers that only call external IDE services
(`context/`, `sketch/`, `board/`, `serial/`, `library/` and the
service-backed `build/` methods) are kept opaque in `serviceResult`. -/
inductive RpcResult where
  | createResult (taskId : String)
  | getResult (snapshot : TaskSnapshot)
  | cancelResult (cancelled : Bool)
  | rootsResult (roots : List Root)
  | serviceResult (payload : String)
deriving DecidableEq, Repr

/-- Embeds `IPCResponse` of `ipc-protocol.ts`. -/
structure IPCResponse where
  id : String
  result : Option RpcResult := none
  error : Option IPCError := none
deriving DecidableEq, Repr

/-- Embeds `handleTask(method, params)` (ipc-server.ts lines 314-363).
`now` models `Date.now()`.  On `task/create` the body is scheduled via
`setImmediate(() => this.runTask(taskId))`, modelled by appending the
id to `scheduled`; nothing of the task body runs here. -/
def handleTask (st : ServerState) (method : String) (params : Params)
    (now : Nat) : Except String (ServerState × RpcResult) :=
  if method = "task/create" then
    let taskId := "task_" ++ toString (st.taskCounter + 1) ++ "_" ++ toString now
    let tool := params.tool.getD ""
    let args := params.arguments.getD {}
    let task : Task :=
      { id := taskId, status := .pending, tool := tool, arguments := args }
    let st' := { st with
      taskCounter := st.taskCounter + 1,
      tasks := mapSet st.tasks taskId task,
      scheduled := st.scheduled ++ [taskId] }
    .ok (st', .createResult taskId)
  else if method = "task/get" then
    let taskId := params.taskId.getD ""
    match mapGet st.tasks taskId with
    | none => .error ("Task not found: " ++ taskId)
    | some task =>
        .ok (st, .getResult
          ⟨task.status, task.result, task.error, task.progress,
           task.progressMessage⟩)
  else if method = "task/cancel" then
    let taskId := params.taskId.getD ""
    match mapGet st.tasks taskId with
    | some task =>
        if task.status = .pending ∨ task.status = .running then
          let st' := { st with
            tasks := mapSet st.tasks taskId
              { task with status := .cancelled, error := some "Cancelled by user" } }
          .ok (st', .cancelResult true)
        else .ok (st, .cancelResult false)
    | none => .ok (st, .cancelResult false)
  else
    .error ("Unknown task method: " ++ method)

/-- Embeds `handleRoots(method, params)` (ipc-server.ts lines 291-308). -/
def handleRoots (st : ServerState) (method : String) :
    Except String (ServerState × RpcResult) :=
  if method = "roots/list" then
    match st.currentSketch with
    | some sketch => .ok (st, .rootsResult [⟨sketch.uri, sketch.name, false⟩])
    | none => .ok (st, .rootsResult [])
  else .error ("Unknown roots method: " ++ method)

/-- Which external service call a task body is suspended on
(`await this.coreService.compile` / `await this.coreService.upload`). -/
inductive AwaitKind where
  | compileCall
  | uploadCall
deriving DecidableEq, Repr

/-- Update the task object bound to `taskId` (JS mutates the object
held in the `Map` in place). -/
def updateTask (st : ServerState) (taskId : String) (f : Task → Task) :
    ServerState :=
  match mapGet st.tasks taskId with
  | none => st
  | some task => { st with tasks := mapSet st.tasks taskId (f task) }

/-- The `catch` block of `runTask` (ipc-server.ts lines 380-383):
set `status := failed` and store the failure message. -/
def failTask (st : ServerState) (taskId : String) (message : String) :
    ServerState :=
  updateTask st taskId
    (fun task => { task with status := .failed, error := some message })

/-- The synchronous segment of `runTask(taskId)` (ipc-server.ts lines
365-384) together with the synchronous prefixes of `runCompileTask`
(386-398) and `runUploadTask` (421-439), up to the first `await` of an
external service.  Returns the suspension point reached, or `none`
when the body already finished (early validation failure, unsupported
tool, or missing task).  Note the unconditional assignment of
status `running` at entry. -/
def runTaskStart (st : ServerState) (taskId : String) :
    ServerState × Option AwaitKind :=
  match mapGet st.tasks taskId with
  | none => (st, none)
  | some task =>
    let st := updateTask st taskId (fun t => { t with status := .running })
    let st := emitProgress st taskId 0 "Starting..."
    if task.tool = "arduino_compile" then
      let st := emitProgress st taskId 10 "Preparing compilation..."
      match st.currentSketch with
      | none => (failTask st taskId "No sketch is currently open", none)
      | some _ =>
        match task.arguments.fqbn with
        | none => (failTask st taskId "No board selected (fqbn required)", none)
        | some _ => (emitProgress st taskId 20 "Compiling...", some .compileCall)
    else if task.tool = "arduino_upload" then
      let st := emitProgress st taskId 10 "Preparing upload..."
      match st.currentSketch with
      | none => (failTask st taskId "No sketch is currently open", none)
      | some _ =>
        match task.arguments.fqbn, task.arguments.port with
        | none, _ => (failTask st taskId "No board selected (fqbn required)", none)
        | some _, none => (failTask st taskId "No port specified", none)
        | some _, some _ =>
            let st := emitProgress st taskId 20 "Compiling..."
            (emitProgress st taskId 50 "Uploading to board...", some .uploadCall)
    else
      (failTask st taskId ("Task not supported for tool: " ++ task.tool), none)

/-- Outcome of the awaited external service call. -/
inductive ExternOutcome where
  | compileDone (buildPath : Option String) (executableSectionsSize : Option String)
  | uploadDone (portAfterUpload : Option String)
  | threw (message : String)
deriving DecidableEq, Repr

/-- The continuation of the task body after the awaited external call
resolves or rejects (ipc-server.ts lines 409-418 / 451-459, wrapped in
the `catch` of `runTask`): on success store the result object, set
`completed` and emit the final progress event; on rejection the
wrapping message is built and the `catch` of `runTask` sets `failed`. -/
def runTaskFinish (st : ServerState) (taskId : String) (kind : AwaitKind)
    (outcome : ExternOutcome) : ServerState :=
  match kind, outcome with
  | .compileCall, .compileDone buildPath sectionsSize =>
      let st := updateTask st taskId (fun t =>
        { t with result := some (.compileOk buildPath sectionsSize),
                 status := .completed })
      emitProgress st taskId 100 "Compilation complete"
  | .compileCall, _ =>
      let msg := match outcome with
        | .threw m => m
        | _ => "Unknown error"
      failTask st taskId ("Compilation failed: " ++ msg)
  | .uploadCall, .uploadDone portAfterUpload =>
      let st := updateTask st taskId (fun t =>
        { t with result := some (.uploadOk portAfterUpload),
                 status := .completed })
      emitProgress st taskId 100 "Upload complete"
  | .uploadCall, _ =>
      let msg := match outcome with
        | .threw m => m
        | _ => "Unknown error"
      failTask st taskId ("Upload failed: " ++ msg)

/-- JavaScript `method.startsWith(head)`, as a character-list prefix
test. -/
def strStartsWith (s head : String) : Bool :=
  head.data.isPrefixOf s.data

/-- Embeds `routeRequest(request)` (ipc-server.ts lines 229-244): dispatch on
the method's prefix in source order; a method matching no prefix
rejects with `Unknown IPC method`.  The handlers that consist of calls
into the Arduino IDE services (`context/`, `sketch/`, `build/`,
`board/`, `serial/`, `library/`) are abstracted by the oracle
`svc`, which supplies their resolved value or thrown failure and
leaves the server state unchanged. -/
def routeRequest (svc : IPCRequest → Except String RpcResult)
    (now : Nat) (st : ServerState) (request : IPCRequest) :
    Except String (ServerState × RpcResult) :=
  let method := request.method
  if strStartsWith method "context/" then (svc request).map (fun v => (st, v))
  else if strStartsWith method "roots/" then handleRoots st method
  else if strStartsWith method "task/" then handleTask st method request.params now
  else if strStartsWith method "sketch/" then (svc request).map (fun v => (st, v))
  else if strStartsWith method "build/" then (svc request).map (fun v => (st, v))
  else if strStartsWith method "board/" then (svc request).map (fun v => (st, v))
  else if strStartsWith method "serial/" then (svc request).map (fun v => (st, v))
  else if strStartsWith method "library/" then (svc request).map (fun v => (st, v))
  else .error ("Unknown IPC method: " ++ method)

/-- The prefixes `routeRequest` recognises, in source order. -/
def knownMethodHeads : List String :=
  ["context/", "roots/", "task/", "sketch/", "build/", "board/",
   "serial/", "library/"]

/-- The try/catch around `routeRequest` inside `handleMessage`
(ipc-server.ts lines 212-223): a resolved handler yields a `result`
Response; any thrown failure is converted to a Response with
`error.code = -1` and the failure's message.  Exactly one Response is
produced either way. -/
def respondTo (svc : IPCRequest → Except String RpcResult) (now : Nat)
    (st : ServerState) (request : IPCRequest) : ServerState × IPCResponse :=
  match routeRequest svc now st request with
  | .ok (st', v) => (st', { id := request.id, result := some v })
  | .error e => (st, { id := request.id, error := some ⟨-1, e⟩ })

/-- Embeds `handleMessage(socket, message)` (ipc-server.ts lines 202-224):
`JSON.parse` — abstracted by the `parse` oracle over an arbitrary line
type — either fails (the line is logged and discarded, no Response)
or yields a request which is dispatched via `respondTo`.  The parsed
request, when any, is returned alongside its Response so that the
dispatch history is observable. -/
def handleMessage {L : Type} (parse : L → Option IPCRequest)
    (svc : IPCRequest → Except String RpcResult) (now : Nat)
    (st : ServerState) (line : L) :
    ServerState × Option (IPCRequest × IPCResponse) :=
  match parse line with
  | none => (st, none)
  | some request =>
      let (st', response) := respondTo svc now st request
      (st', some (request, response))

/-- Sequential processing of a list of complete message lines on one
connection (the `for` loop of `handleClientConnection`, lines
182-185).  Returns the final state, the requests dispatched to the
router, and the Responses written back, in order. -/
def processLines {L : Type} (parse : L → Option IPCRequest)
    (svc : IPCRequest → Except String RpcResult) (now : Nat)
    (st : ServerState) : List L →
    ServerState × List IPCRequest × List IPCResponse
  | [] => (st, [], [])
  | line :: rest =>
      match handleMessage parse svc now st line with
      | (st1, none) => processLines parse svc now st1 rest
      | (st1, some (request, response)) =>
          let (st2, reqs, resps) := processLines parse svc now st1 rest
          (st2, request :: reqs, response :: resps)

/-! ### Line framing (the data-event handler of the socket) -/

/-- Prepend a character to the first fragment of a split. -/
def consHead (c : Char) : List (List Char) → List (List Char)
  | [] => [[c]]
  | h :: t => (c :: h) :: t

/-- JavaScript `string.split('\n')` over a character list: the result
is never empty, and joining it with `'\n'` gives back the input. -/
def splitLines : List Char → List (List Char)
  | [] => [[]]
  | c :: cs =>
      if c = '\n' then [] :: splitLines cs
      else consHead c (splitLines cs)

/-- Glue a leading fragment onto the first piece of a split. -/
def glueHead (b : List Char) : List (List Char) → List (List Char)
  | [] => [b]
  | h :: t => (b ++ h) :: t

/-- A line is skipped when `!line.trim()` holds, i.e. it is empty or
all whitespace. -/
def isBlank (l : List Char) : Bool :=
  l.all (·.isWhitespace)

/-- State of the framing loop of `handleClientConnection` (ipc-server.ts
lines 175-186): the retained `buffer` and the complete, non-blank
message lines extracted so far (each of which is passed to
`handleMessage`). -/
structure Framer where
  buffer : List Char := []
  messages : List (List Char) := []
deriving DecidableEq, Repr

/-- One `data` event (ipc-server.ts lines 177-186):
`buffer += chunk`; split on `'\n'`; every fragment except the last is
a message candidate (blank ones skipped); the last fragment is the new
buffer. -/
def feedChunk (f : Framer) (chunk : List Char) : Framer :=
  { buffer := (splitLines (f.buffer ++ chunk)).getLastD [],
    messages := f.messages ++
      (splitLines (f.buffer ++ chunk)).dropLast.filter (fun l => !(isBlank l)) }

/-- Splitting the concatenation of two strings: the pieces of the
first, with the first piece of the second glued onto the first
string's trailing fragment. -/
def combineSplits (u v : List (List Char)) : List (List Char) :=
  u.dropLast ++ glueHead (u.getLastD []) v

theorem consHead_ne_nil (c : Char) (l : List (List Char)) :
    consHead c l ≠ [] := by
  cases l <;> simp [consHead]

theorem splitLines_ne_nil (s : List Char) : splitLines s ≠ [] := by
  cases s with
  | nil => simp [splitLines]
  | cons c cs =>
      simp only [splitLines]
      split
      · simp
      · exact consHead_ne_nil _ _

theorem glueHead_ne_nil (b : List Char) (l : List (List Char)) :
    glueHead b l ≠ [] := by
  cases l <;> simp [glueHead]

theorem getLastD_append_of_ne_nil (u v : List (List Char))
    (d : List Char) (hv : v ≠ []) : (u ++ v).getLastD d = v.getLastD d := by
  induction u with
  | nil => rfl
  | cons a u ih =>
      cases u with
      | nil =>
          cases v with
          | nil => exact absurd rfl hv
          | cons b t => simp [List.getLastD_cons]
      | cons a' u' => simpa [List.getLastD_cons] using ih

theorem dropLast_append_of_ne_nil (u v : List (List Char))
    (hv : v ≠ []) : (u ++ v).dropLast = u ++ v.dropLast := by
  induction u with
  | nil => rfl
  | cons a u ih =>
      cases v with
      | nil => exact absurd rfl hv
      | cons b t => simp [List.dropLast_cons_of_ne_nil, ih]

theorem combineSplits_cons_nil (u v : List (List Char)) (hu : u ≠ []) :
    combineSplits ([] :: u) v = [] :: combineSplits u v := by
  cases u with
  | nil => exact absurd rfl hu
  | cons a t => simp [combineSplits, List.getLastD_cons, List.dropLast_cons_of_ne_nil]

theorem consHead_combineSplits (c : Char) (u v : List (List Char))
    (hu : u ≠ []) (hv : v ≠ []) :
    consHead c (combineSplits u v) = combineSplits (consHead c u) v := by
  cases u with
  | nil => exact absurd rfl hu
  | cons h' t' =>
      cases t' with
      | nil =>
          cases v with
          | nil => exact absurd rfl hv
          | cons hy ty => simp [combineSplits, consHead, glueHead]
      | cons b t'' =>
          simp [combineSplits, consHead, glueHead, List.getLastD_cons,
            List.dropLast_cons_of_ne_nil]

theorem splitLines_append (xs ys : List Char) :
    splitLines (xs ++ ys) = combineSplits (splitLines xs) (splitLines ys) := by
  induction xs with
  | nil =>
      cases h : splitLines ys with
      | nil => exact absurd h (splitLines_ne_nil ys)
      | cons a t => simp [splitLines, combineSplits, glueHead, h]
  | cons c cs ih =>
      by_cases hc : c = '\n'
      · subst hc
        have h1 : splitLines ('\n' :: (cs ++ ys)) = [] :: splitLines (cs ++ ys) := by
          simp [splitLines]
        have h2 : splitLines ('\n' :: cs) = [] :: splitLines cs := by
          simp [splitLines]
        rw [List.cons_append, h1, h2, ih,
          combineSplits_cons_nil _ _ (splitLines_ne_nil cs)]
      · have h1 : splitLines (c :: (cs ++ ys)) = consHead c (splitLines (cs ++ ys)) := by
          simp [splitLines, hc]
        have h2 : splitLines (c :: cs) = consHead c (splitLines cs) := by
          simp [splitLines, hc]
        rw [List.cons_append, h1, h2, ih,
          consHead_combineSplits c _ _ (splitLines_ne_nil cs) (splitLines_ne_nil ys)]

theorem splitLines_eq_self (s : List Char) (h : '\n' ∉ s) :
    splitLines s = [s] := by
  induction s with
  | nil => rfl
  | cons c cs ih =>
      have hc : ¬ (c = '\n') := by
        intro e
        exact h (by rw [e]; exact List.mem_cons_self _ _)
      have hcs : '\n' ∉ cs := fun m => h (List.mem_cons_of_mem c m)
      simp [splitLines, hc, ih hcs, consHead]

theorem newline_not_mem_last (s : List Char) :
    '\n' ∉ (splitLines s).getLastD [] := by
  induction s with
  | nil => simp [splitLines]
  | cons c cs ih =>
      by_cases hc : c = '\n'
      · subst hc
        have h1 : splitLines ('\n' :: cs) = [] :: splitLines cs := by
          simp [splitLines]
        rw [h1, List.getLastD_cons]
        exact ih
      · have h1 : splitLines (c :: cs) = consHead c (splitLines cs) := by
          simp [splitLines, hc]
        rw [h1]
        cases hsc : splitLines cs with
        | nil => exact absurd hsc (splitLines_ne_nil cs)
        | cons h t =>
            rw [hsc] at ih
            cases t with
            | nil =>
                simp only [consHead, List.getLastD_cons, List.getLastD_nil] at ih ⊢
                simp only [List.mem_cons] at ih ⊢
                push_neg
                refine ⟨fun e => hc e.symm, fun m => ih ?_⟩
                simp [m]
            | cons b t' =>
                simp only [consHead, List.getLastD_cons] at ih ⊢
                exact ih

theorem feedChunk_assoc (f : Framer) (a b : List Char) :
    feedChunk (feedChunk f a) b = feedChunk f (a ++ b) := by
  have hglue := glueHead_ne_nil ((splitLines (f.buffer ++ a)).getLastD [])
    (splitLines b)
  have hkey : splitLines ((splitLines (f.buffer ++ a)).getLastD [] ++ b)
      = glueHead ((splitLines (f.buffer ++ a)).getLastD []) (splitLines b) := by
    rw [splitLines_append,
      splitLines_eq_self _ (newline_not_mem_last (f.buffer ++ a))]
    simp [combineSplits, glueHead]
  have habb : splitLines (f.buffer ++ (a ++ b))
      = combineSplits (splitLines (f.buffer ++ a)) (splitLines b) := by
    rw [← List.append_assoc, splitLines_append]
  simp only [feedChunk, habb, hkey, combineSplits, Framer.mk.injEq]
  constructor
  · rw [getLastD_append_of_ne_nil _ _ _ hglue]
  · rw [dropLast_append_of_ne_nil _ _ hglue, List.filter_append,
      List.append_assoc]

theorem foldl_feedChunk (f : Framer) (a : List Char)
    (chunks : List (List Char)) :
    List.foldl feedChunk (feedChunk f a) chunks =
      feedChunk f (a ++ chunks.flatten) := by
  induction chunks generalizing a with
  | nil => simp
  | cons c cs ih =>
      rw [List.foldl_cons, feedChunk_assoc, ih]
      simp [List.append_assoc]

/-! ### Helper lemmas -/

theorem mapGet_mapSet_self (m : List (String × Task)) (k : String)
    (v : Task) : mapGet (mapSet m k v) k = some v := by
  induction m with
  | nil => simp [mapSet, mapGet]
  | cons kv rest ih =>
      obtain ⟨k', v'⟩ := kv
      by_cases h : k' = k <;> simp [mapSet, mapGet, h, ih]

theorem mapGet_mapSet_ne (m : List (String × Task)) (k k' : String)
    (v : Task) (h : k ≠ k') : mapGet (mapSet m k v) k' = mapGet m k' := by
  induction m with
  | nil => simp [mapSet, mapGet, h]
  | cons kv rest ih =>
      obtain ⟨k₀, v₀⟩ := kv
      by_cases h₀ : k₀ = k <;> simp [mapSet, mapGet, h₀, h, ih]

/-- The message written to one client for an event. -/
def eventPayload (e : IPCEvent) : String :=
  serializeEvent e ++ "\n"

/-- Deliveries produced by one broadcast: the identical serialized
payload, to every client whose write succeeds, in set order. -/
def deliveriesFor (clients : List Client) (e : IPCEvent) :
    List (Nat × String) :=
  clients.filterMap (fun c =>
    if c.writeOk then some (c.id, eventPayload e) else none)

/-- Log entries produced by one broadcast: one per failing write. -/
def failureLogsFor (clients : List Client) : List String :=
  (clients.filter (fun c => !(c.writeOk))).map
    (fun _ => "[arduino-mcp] Failed to send event")

theorem broadcast_foldl (msg : String) (cs : List Client)
    (s : ServerState) :
    cs.foldl
      (fun s c =>
        if c.writeOk then { s with sent := s.sent ++ [(c.id, msg)] }
        else { s with log := s.log ++ ["[arduino-mcp] Failed to send event"] })
      s =
    { s with
      sent := s.sent ++ cs.filterMap (fun c =>
        if c.writeOk then some (c.id, msg) else none),
      log := s.log ++ (cs.filter (fun c => !(c.writeOk))).map
        (fun _ => "[arduino-mcp] Failed to send event") } := by
  induction cs generalizing s with
  | nil => simp
  | cons c rest ih =>
      by_cases h : c.writeOk <;> simp [h, ih, List.append_assoc]

/-- Characterization of `broadcast`: the event is serialized once; the
payload is appended to the trace for every client whose write
succeeds; each failing write appends one log entry; nothing else in
the state changes (in particular the client set is untouched). -/
theorem broadcast_spec (st : ServerState) (e : IPCEvent) :
    broadcast st e =
      { st with
        sent := st.sent ++ deliveriesFor st.clients e,
        log := st.log ++ failureLogsFor st.clients } := by
  unfold broadcast deliveriesFor failureLogsFor eventPayload
  exact broadcast_foldl _ _ _

theorem isPrefixOf_head_eq {a b : Char} {as bs l : List Char}
    (ha : (a :: as).isPrefixOf l = true)
    (hb : (b :: bs).isPrefixOf l = true) : a = b := by
  cases l with
  | nil => simp [List.isPrefixOf] at ha
  | cons c t =>
      simp [List.isPrefixOf] at ha hb
      exact ha.1.trans hb.1.symm

/-- A method under the `task/` prefix does not match any of the prefix
checks that `routeRequest` performs before the `task/` one. -/
theorem task_method_head {s : String}
    (h : strStartsWith s "task/" = true) :
    strStartsWith s "context/" = false ∧ strStartsWith s "roots/" = false := by
  unfold strStartsWith at h ⊢
  constructor
  · by_contra hc
    simp only [Bool.not_eq_false] at hc
    exact absurd (isPrefixOf_head_eq h hc) (by decide)
  · by_contra hc
    simp only [Bool.not_eq_false] at hc
    exact absurd (isPrefixOf_head_eq h hc) (by decide)

/-! ### Claims -/

/-- C5: Feeding a byte stream to the connection's framing loop in any
partition into chunks — including one byte at a time — yields exactly
the same sequence of complete (non-blank) message lines as delivering
the whole stream (`chunks.flatten`) as a single chunk. -/
theorem claim5_framing_chunk_invariant (chunks : List (List Char)) :
    (List.foldl feedChunk {} chunks).messages =
      (feedChunk {} chunks.flatten).messages := by
  cases chunks with
  | nil => rfl
  | cons c cs =>
      rw [List.foldl_cons, foldl_feedChunk]
      rfl

/-- C3: `task/create` stores a fresh task whose status is exactly
`pending`, schedules its body (appends the id to `scheduled`) without
running any of it — no event is emitted and no status beyond `pending`
is reached — returns `createResult taskId`, and an immediately
following `task/get` observes `pending` (never `completed`). -/
theorem claim3_create_pending (st : ServerState) (p : Params)
    (now now' : Nat) :
    ∃ st' taskId,
      handleTask st "task/create" p now = .ok (st', .createResult taskId) ∧
      mapGet st'.tasks taskId = some
        { id := taskId, status := .pending, tool := p.tool.getD "",
          arguments := p.arguments.getD {} } ∧
      handleTask st' "task/get" { taskId := some taskId } now' =
        .ok (st', .getResult ⟨.pending, none, none, none, none⟩) ∧
      st'.scheduled = st.scheduled ++ [taskId] ∧
      st'.sent = st.sent := by
  refine ⟨_, _, rfl, mapGet_mapSet_self _ _ _, ?_, rfl, rfl⟩
  simp [handleTask, mapGet_mapSet_self]

/-- C2: For a task present in the table, `task/cancel` answers
`cancelled:true`, sets the status to `cancelled` and stores the fixed
"Cancelled by user" error exactly when the task's current status is
`pending` or `running`; otherwise it answers `cancelled:false` and
leaves the whole server state (in particular the task's status, result
and error) unchanged. -/
theorem claim2_cancel_iff (st : ServerState) (tid : String) (t : Task)
    (now : Nat) (h : mapGet st.tasks tid = some t) :
    ∃ st' cancelled,
      handleTask st "task/cancel" { taskId := some tid } now =
        .ok (st', .cancelResult cancelled) ∧
      (cancelled = true ↔ (t.status = .pending ∨ t.status = .running)) ∧
      (cancelled = true →
        mapGet st'.tasks tid = some
          { t with status := .cancelled, error := some "Cancelled by user" }) ∧
      (cancelled = false → st' = st) := by
  by_cases hpr : t.status = .pending ∨ t.status = .running
  · refine ⟨{ st with tasks := (mapSet st.tasks tid
        { t with status := .cancelled, error := some "Cancelled by user" }) },
      true, ?_, by simp [hpr], fun _ => ?_, by simp⟩
    · simp [handleTask, h, hpr]
    · exact mapGet_mapSet_self _ _ _
  · refine ⟨st, false, ?_, by simp [hpr], by simp, fun _ => rfl⟩
    simp [handleTask, h, hpr]

/-- Witness server state: one pending task `task_1_7`. -/
def pendingTask : Task :=
  { id := "task_1_7", status := .pending, tool := "arduino_compile",
    arguments := {} }

/-- Witness server state holding `pendingTask`. -/
def pendingState : ServerState :=
  { tasks := [("task_1_7", pendingTask)], taskCounter := 1,
    scheduled := ["task_1_7"] }

theorem claim2_cancel_iff_witness :
    mapGet pendingState.tasks "task_1_7" = some pendingTask ∧
    (∃ st' cancelled,
      handleTask pendingState "task/cancel" { taskId := some "task_1_7" } 9 =
        .ok (st', .cancelResult cancelled) ∧
      (cancelled = true ↔
        (pendingTask.status = .pending ∨ pendingTask.status = .running)) ∧
      (cancelled = true →
        mapGet st'.tasks "task_1_7" = some { pendingTask with status := .cancelled, error := some "Cancelled by user" }) ∧
      (cancelled = false → st' = pendingState)) :=
  ⟨rfl, claim2_cancel_iff pendingState "task_1_7" pendingTask 9 rfl⟩

/-- C9: `task/cancel` with an unknown taskId succeeds with
`cancelled:false` and leaves the state unchanged, while `task/get`
with the same unknown taskId throws `Task not found`. -/
theorem claim9_cancel_unknown_vs_get (st : ServerState) (tid : String)
    (now : Nat) (h : mapGet st.tasks tid = none) :
    handleTask st "task/cancel" { taskId := some tid } now =
      .ok (st, .cancelResult false) ∧
    handleTask st "task/get" { taskId := some tid } now =
      .error ("Task not found: " ++ tid) := by
  constructor <;> simp [handleTask, h]

theorem claim9_cancel_unknown_vs_get_witness :
    mapGet (ServerState.mk [] 0 none none [] [] [] []).tasks "nope" = none ∧
    (handleTask { } "task/cancel" { taskId := some "nope" } 0 =
        .ok ({ }, .cancelResult false) ∧
      handleTask { } "task/get" { taskId := some "nope" } 0 =
        .error ("Task not found: " ++ "nope")) :=
  ⟨rfl, claim9_cancel_unknown_vs_get { } "nope" 0 rfl⟩

/-- C1 (code bug): the `cancelled` terminal status is not stable.  The
trace: `task/create` for tool `arduino_compile` with no sketch open;
`task/cancel` lands before the scheduled body runs, so `task/get`
reports the terminal `cancelled` snapshot; then the scheduled
`runTask` fires anyway — it unconditionally sets status `running`
on entry and the body then drives the task to `failed` — so a later
`task/get` reports `failed` with a different error, contradicting
"no further mutation after a terminal status". -/
theorem claim1_cancelled_task_overwritten :
    ∃ st1 st2 st3,
      handleTask { } "task/create"
        { tool := some "arduino_compile", arguments := some { } } 0 =
        .ok (st1, .createResult "task_1_0") ∧
      handleTask st1 "task/cancel" { taskId := some "task_1_0" } 0 =
        .ok (st2, .cancelResult true) ∧
      handleTask st2 "task/get" { taskId := some "task_1_0" } 0 =
        .ok (st2, .getResult
          ⟨.cancelled, none, some "Cancelled by user", none, none⟩) ∧
      runTaskStart st2 "task_1_0" = (st3, none) ∧
      handleTask st3 "task/get" { taskId := some "task_1_0" } 0 =
        .ok (st3, .getResult
          ⟨.failed, none, some "No sketch is currently open", none, none⟩) :=
  ⟨_, _, _, rfl, rfl, rfl, rfl, rfl⟩

/-- C10: `setCurrentSketch` always replaces the stored sketch; it
broadcasts a `roots/changed` event to the connected clients exactly
when the new sketch's uri differs from the previous one (`none`
counting as no uri); and no other server state — tasks, clients, build
output, counters, schedule — is modified. -/
theorem claim10_set_sketch_frame (st : ServerState) (s : Option Sketch) :
    (setCurrentSketch st s).currentSketch = s ∧
    (setCurrentSketch st s).tasks = st.tasks ∧
    (setCurrentSketch st s).taskCounter = st.taskCounter ∧
    (setCurrentSketch st s).clients = st.clients ∧
    (setCurrentSketch st s).lastBuildOutput = st.lastBuildOutput ∧
    (setCurrentSketch st s).scheduled = st.scheduled ∧
    (setCurrentSketch st s).sent = st.sent ++
      (if st.currentSketch.map (·.uri) = s.map (·.uri) then []
       else deliveriesFor st.clients ⟨"roots/changed", .empty⟩) ∧
    (setCurrentSketch st s).log = st.log ++
      (if st.currentSketch.map (·.uri) = s.map (·.uri) then []
       else failureLogsFor st.clients) := by
  by_cases h : st.currentSketch.map (·.uri) = s.map (·.uri)
  · simp [setCurrentSketch, h]
  · simp [setCurrentSketch, h, emitRootsChanged, broadcast_spec]

/-- Broadcast set with three connections, the middle one broken. -/
def brokenMiddleState : ServerState :=
  { clients := [⟨1, true⟩, ⟨2, false⟩, ⟨3, true⟩] }

/-- C8 counterexample: with three connections of which the middle one
has a broken pipe, `broadcast` delivers to clients 1 and 3 and logs
the failure, but the failing connection is NOT dropped from the
broadcast set — the set after the call still contains client 2
(removal happens only in the socket error/close event handlers). -/
theorem claim8_failing_client_not_dropped :
    (broadcast brokenMiddleState ⟨"roots/changed", .empty⟩).clients =
      [⟨1, true⟩, ⟨2, false⟩, ⟨3, true⟩] ∧
    Client.mk 2 false ∈
      (broadcast brokenMiddleState ⟨"roots/changed", .empty⟩).clients ∧
    (broadcast brokenMiddleState ⟨"roots/changed", .empty⟩).sent.map
      Prod.fst = [1, 3] ∧
    (broadcast brokenMiddleState ⟨"roots/changed", .empty⟩).log =
      ["[arduino-mcp] Failed to send event"] :=
  ⟨rfl, by decide, rfl, rfl⟩

/-- C8 as amended: `broadcast` serializes the event once and writes
that single payload to every connection whose write succeeds, in set
order; a write failure is logged and not raised to the caller, and
delivery to every other connection still occurs; the failing
connection remains in the broadcast set (it is removed only by the
socket error/close handlers), and no other server state changes. -/
theorem claim8_broadcast_isolation (st : ServerState) (e : IPCEvent) :
    (broadcast st e).clients = st.clients ∧
    (broadcast st e).tasks = st.tasks ∧
    (broadcast st e).currentSketch = st.currentSketch ∧
    (broadcast st e).lastBuildOutput = st.lastBuildOutput ∧
    (broadcast st e).taskCounter = st.taskCounter ∧
    (broadcast st e).scheduled = st.scheduled ∧
    (broadcast st e).sent = st.sent ++ deliveriesFor st.clients e ∧
    (broadcast st e).log = st.log ++ failureLogsFor st.clients := by
  rw [broadcast_spec]
  simp

/-- An oracle standing in for the service-backed handlers. -/
def trivialServices : IPCRequest → Except String RpcResult :=
  fun _ => .ok (.serviceResult "")

/-- C4 counterexample: a routing failure (`bogus/method`, matching no
known prefix) and a handler-level business failure (`task/get` on an
unknown id) are surfaced to the caller with the SAME error structure
and the same `code = -1`; they differ only in message text, so the
claim that the two classes are distinguishable by structure/code is
false. -/
theorem claim4_same_error_code :
    (respondTo trivialServices 0 { } { id := "1", method := "bogus/method" }).2.error =
      some ⟨-1, "Unknown IPC method: bogus/method"⟩ ∧
    (respondTo trivialServices 0 { }
      { id := "2", method := "task/get", params := { taskId := some "missing" } }).2.error =
      some ⟨-1, "Task not found: missing"⟩ ∧
    (respondTo trivialServices 0 { } { id := "1", method := "bogus/method" }).2.error.map
      (fun err => err.code) =
    (respondTo trivialServices 0 { }
      { id := "2", method := "task/get", params := { taskId := some "missing" } }).2.error.map
      (fun err => err.code) :=
  ⟨rfl, rfl, rfl⟩

/-- C4 as amended: a method matching no known prefix yields a Response
error `code = -1`, message `Unknown IPC method: <method>`; an unknown
suffix under the `task/` prefix yields `code = -1`, message
`Unknown task method: <method>`; in both cases `result` is absent.
These "method not found" errors carry the same structure and the same
code `-1` as handler failures and are distinguishable from them only
by their message text. -/
theorem claim4_unknown_method_error
    (svc : IPCRequest → Except String RpcResult) (now : Nat)
    (st : ServerState) (r1 r2 : IPCRequest)
    (h1 : ∀ p ∈ knownMethodHeads, strStartsWith r1.method p = false)
    (h2 : strStartsWith r2.method "task/" = true)
    (h3 : r2.method ≠ "task/create") (h4 : r2.method ≠ "task/get")
    (h5 : r2.method ≠ "task/cancel") :
    (respondTo svc now st r1).2 =
      { id := r1.id, error := some ⟨-1, "Unknown IPC method: " ++ r1.method⟩ } ∧
    (respondTo svc now st r2).2 =
      { id := r2.id, error := some ⟨-1, "Unknown task method: " ++ r2.method⟩ } := by
  constructor
  · have hc := h1 "context/" (by simp [knownMethodHeads])
    have hr := h1 "roots/" (by simp [knownMethodHeads])
    have ht := h1 "task/" (by simp [knownMethodHeads])
    have hs := h1 "sketch/" (by simp [knownMethodHeads])
    have hb := h1 "build/" (by simp [knownMethodHeads])
    have hbo := h1 "board/" (by simp [knownMethodHeads])
    have hse := h1 "serial/" (by simp [knownMethodHeads])
    have hl := h1 "library/" (by simp [knownMethodHeads])
    simp [respondTo, routeRequest, hc, hr, ht, hs, hb, hbo, hse, hl]
  · have hc := (task_method_head h2).1
    have hr := (task_method_head h2).2
    simp [respondTo, routeRequest, handleTask, hc, hr, h2, h3, h4, h5]

theorem claim4_unknown_method_error_witness :
    (∀ p ∈ knownMethodHeads, strStartsWith "bogus/x" p = false) ∧
    strStartsWith "task/bogus" "task/" = true ∧
    ((respondTo trivialServices 0 { } { id := "7", method := "bogus/x" }).2 =
        { id := "7", error := some ⟨-1, "Unknown IPC method: " ++ "bogus/x"⟩ } ∧
      (respondTo trivialServices 0 { } { id := "8", method := "task/bogus" }).2 =
        { id := "8", error := some ⟨-1, "Unknown task method: " ++ "task/bogus"⟩ }) :=
  ⟨by decide, by decide,
    claim4_unknown_method_error trivialServices 0 { }
      { id := "7", method := "bogus/x" } { id := "8", method := "task/bogus" }
      (by decide) (by decide) (by decide) (by decide) (by decide)⟩

/-- C6: a line that fails to parse, sitting between two valid request
lines, produces no Response and no dispatch, and does not disturb the
processing of the surrounding lines: the run over `[v1, bad, v2]` is
identical to the run over `[v1, v2]`, and exactly the two valid
requests are dispatched to the router. -/
theorem claim6_malformed_line_isolated {L : Type}
    (parse : L → Option IPCRequest)
    (svc : IPCRequest → Except String RpcResult) (now : Nat)
    (st : ServerState) (v1 bad v2 : L) (r1 r2 : IPCRequest)
    (h1 : parse v1 = some r1) (hb : parse bad = none)
    (h2 : parse v2 = some r2) :
    processLines parse svc now st [v1, bad, v2] =
      processLines parse svc now st [v1, v2] ∧
    (processLines parse svc now st [v1, bad, v2]).2.1 = [r1, r2] := by
  rcases hr1 : respondTo svc now st r1 with ⟨st1, resp1⟩
  rcases hr2 : respondTo svc now st1 r2 with ⟨st2, resp2⟩
  constructor <;>
    simp [processLines, handleMessage, h1, hb, h2, hr1, hr2]

/-- A concrete parse oracle for the C6 witness: lines are numbers,
line 2 is malformed. -/
def witnessParse : Nat → Option IPCRequest := fun n =>
  if n = 1 then some { id := "a", method := "roots/list" }
  else if n = 3 then some { id := "b", method := "roots/list" }
  else none

theorem claim6_malformed_line_isolated_witness :
    witnessParse 1 = some { id := "a", method := "roots/list" } ∧
    witnessParse 2 = none ∧
    witnessParse 3 = some { id := "b", method := "roots/list" } ∧
    (processLines witnessParse trivialServices 0 { } [1, 2, 3] =
        processLines witnessParse trivialServices 0 { } [1, 3] ∧
      (processLines witnessParse trivialServices 0 { } [1, 2, 3]).2.1 =
        [{ id := "a", method := "roots/list" },
         { id := "b", method := "roots/list" }]) :=
  ⟨rfl, rfl, rfl,
    claim6_malformed_line_isolated witnessParse trivialServices 0 { } 1 2 3
      { id := "a", method := "roots/list" } { id := "b", method := "roots/list" }
      rfl rfl rfl⟩

/-- A Response is well-formed for a request when it echoes the
request's id and is either a `result` Response (no error) or an error
Response with `code = -1` and no result. -/
def respMatches (req : IPCRequest) (resp : IPCResponse) : Bool :=
  resp.id == req.id &&
    ((resp.result.isSome && resp.error.isNone) ||
      (match resp.error with
       | some err => (err.code == -1) && resp.result.isNone
       | none => false))

theorem respMatches_respondTo
    (svc : IPCRequest → Except String RpcResult) (now : Nat)
    (st : ServerState) (req : IPCRequest) :
    respMatches req (respondTo svc now st req).2 = true := by
  unfold respondTo
  cases h : routeRequest svc now st req with
  | ok p => simp [respMatches]
  | error e => simp [respMatches]

/-- C7: every successfully parsed request — and only those — is
dispatched, and each receives exactly one Response: the dispatched
requests are exactly `lines.filterMap parse` in order, the Responses
are in bijection with them, and each Response echoes its request's id
and is either a `result` Response or an error Response carrying
`code = -1`.  Processing is total: no handler failure escapes. -/
theorem claim7_one_response_each {L : Type} (parse : L → Option IPCRequest)
    (svc : IPCRequest → Except String RpcResult) (now : Nat)
    (st : ServerState) (lines : List L) :
    (processLines parse svc now st lines).2.1 = lines.filterMap parse ∧
    List.Forall₂ (fun req resp => respMatches req resp = true)
      (processLines parse svc now st lines).2.1
      (processLines parse svc now st lines).2.2 := by
  induction lines generalizing st with
  | nil => simp [processLines]
  | cons l ls ih =>
      cases hp : parse l with
      | none =>
          simp only [processLines, handleMessage, hp, List.filterMap_cons]
          exact ih st
      | some req =>
          rcases hr : respondTo svc now st req with ⟨st1, resp⟩
          have hm : respMatches req resp = true := by
            have := respMatches_respondTo svc now st req
            rw [hr] at this
            exact this
          simp only [processLines, handleMessage, hp, hr, List.filterMap_cons]
          refine ⟨?_, ?_⟩
          · simp [(ih st1).1]
          · exact List.Forall₂.cons hm (ih st1).2

end ArduinoMCP
